import Mathlib

/-!
Verification of the spatial aggregation and overlap-scoring engine of the
ripe-ride repository: the grid index (`src/lib/heatmapTracker.ts`), its
configuration (`src/lib/heatmapConfig.ts`), the route segment processor
(`src/lib/routeProcessor.ts`) and the overlap scorer
(`calculateActualOverlapScore` in `src/app/api/routes/route.ts`).

Modelling conventions:
* JavaScript `number` values are modelled as exact rationals (`ℚ`).
* The JS `Map<string, number>` keyed by the string `"cellX,cellY"` is
  modelled as an association list `List ((Int × Int) × ℚ)` with JS `Map`
  semantics: `set` updates an existing key in place (keeping its position
  in insertion order) and appends a new key at the end; iteration visits
  entries in insertion order.  The string key `"x,y"` round-trips exactly
  with the integer pair `(x, y)` (the source rebuilds the pair with
  `key.split(',').map(Number)`), so the pair itself is used as the key.
* `Math.cos(x * Math.PI / 180)` is transcendental, hence not representable
  as a rational-valued closed form; it is modelled by an abstract parameter
  `cosDeg : ℚ → ℚ` threaded through every definition that uses it.
* `calculateDistance` (haversine) lives in `src/lib/distance.ts`, which is
  not part of the sources at hand; it is modelled as an abstract parameter
  `calcDist : ℚ → ℚ → ℚ → ℚ → ℚ`.
-/

namespace RipeRide

/-- A grid cell coordinate `(cellX, cellY)`, the decoded form of the JS map
key built by `getCellKey` as the string template `cellX,cellY`. -/
abbrev Cell := Int × Int

/-- The contents of the JS `Map<string, number>` backing the tracker:
an association list in insertion order. -/
abbrev HeatmapData := List (Cell × ℚ)

/-- JS `Map.prototype.get`: first (unique, once keys are nodup) value stored
at the key, `none` when absent (`undefined`). -/
def mapGet : HeatmapData → Cell → Option ℚ
  | [], _ => none
  | (k', v') :: rest, k => if k' = k then some v' else mapGet rest k

/-- JS `Map.prototype.set`: update an existing key in place (its position in
insertion order is kept), or append a fresh key at the end. -/
def mapSet : HeatmapData → Cell → ℚ → HeatmapData
  | [], k, v => [(k, v)]
  | (k', v') :: rest, k, v =>
    if k' = k then (k, v) :: rest else (k', v') :: mapSet rest k v

/-- The keys of the map, in insertion order. -/
def mapKeys (m : HeatmapData) : List Cell := m.map Prod.fst

/-- `HeatmapConfig` from `src/lib/heatmapConfig.ts`: cell size in kilometers
and the reference point `[lat, lon]`. -/
structure HeatmapConfig where
  heatmapSizeKm : ℚ
  referencePoint : ℚ × ℚ
deriving DecidableEq, Repr

/-- `DEFAULT_HEATMAP_SIZE_KM` from `src/lib/heatmapConfig.ts`. -/
def DEFAULT_HEATMAP_SIZE_KM : ℚ := 5

/-- `DEFAULT_REFERENCE_POINT` from `src/lib/heatmapConfig.ts` (Amsterdam). -/
def DEFAULT_REFERENCE_POINT : ℚ × ℚ := (52.3676, 4.9041)

/-- `createHeatmapConfig` from `src/lib/heatmapConfig.ts`: builds the record
from its two (defaulted) arguments.  The source performs no validation and
no coercion of either argument. -/
def createHeatmapConfig
    (heatmapSizeKm : ℚ := DEFAULT_HEATMAP_SIZE_KM)
    (referencePoint : ℚ × ℚ := DEFAULT_REFERENCE_POINT) : HeatmapConfig :=
  { heatmapSizeKm := heatmapSizeKm, referencePoint := referencePoint }

/-- `latLngToHeatmap` from `src/lib/heatmapTracker.ts`.  `cosDeg` models the
JS expression `x ↦ Math.cos(x * Math.PI / 180)`; the source applies it to
`refLat`, the reference point's latitude. -/
def latLngToHeatmap (cosDeg : ℚ → ℚ) (lat lng : ℚ)
    (heatmapConfig : HeatmapConfig) : Cell :=
  let refLat := heatmapConfig.referencePoint.1
  let refLng := heatmapConfig.referencePoint.2
  let kmToLatDegrees := heatmapConfig.heatmapSizeKm / 111
  let kmToLngDegrees := heatmapConfig.heatmapSizeKm / (111 * cosDeg refLat)
  let cellX := ⌊(lng - refLng) / kmToLngDegrees⌋
  let cellY := ⌊(lat - refLat) / kmToLatDegrees⌋
  (cellX, cellY)

/-- `HeatmapCell` from `src/lib/heatmapTracker.ts`. -/
structure HeatmapCell where
  cellX : Int
  cellY : Int
  distance : ℚ
deriving DecidableEq, Repr

/-- The state of an `ArrayHeatmapTracker` from `src/lib/heatmapTracker.ts`:
its private `Map` contents plus the stored configuration.  The constructor
only stores the configuration, so a fresh tracker is `⟨[], cfg⟩`. -/
structure ArrayHeatmapTracker where
  heatmap : HeatmapData
  heatmapConfig : HeatmapConfig
deriving DecidableEq, Repr

namespace ArrayHeatmapTracker

/-- `addDistance`: resolve the cell of `(lat, lng)` and set its entry to the
previous value (0 when absent, via `get(key) || 0`) plus `distance`. -/
def addDistance (cosDeg : ℚ → ℚ) (t : ArrayHeatmapTracker)
    (lat lng distance : ℚ) : ArrayHeatmapTracker :=
  let c := latLngToHeatmap cosDeg lat lng t.heatmapConfig
  { t with heatmap := mapSet t.heatmap c ((mapGet t.heatmap c).getD 0 + distance) }

/-- `getDistance`: the stored value, or 0 when absent (`get(key) || 0`). -/
def getDistance (t : ArrayHeatmapTracker) (cellX cellY : Int) : ℚ :=
  (mapGet t.heatmap (cellX, cellY)).getD 0

/-- `findCell`: the cell record when its distance is positive, else
`undefined`. -/
def findCell (t : ArrayHeatmapTracker) (cellX cellY : Int) : Option HeatmapCell :=
  let distance := t.getDistance cellX cellY
  if distance > 0 then some ⟨cellX, cellY, distance⟩ else none

/-- The sequence of cells visited by `forEachNonEmpty`: the entries with
positive distance, in map (insertion) order. -/
def nonEmptyCells (t : ArrayHeatmapTracker) : List HeatmapCell :=
  (t.heatmap.filter (fun e => 0 < e.2)).map (fun e => ⟨e.1.1, e.1.2, e.2⟩)

/-- `getTotalDistance`: accumulates `total += cell.distance` over
`forEachNonEmpty`. -/
def getTotalDistance (t : ArrayHeatmapTracker) : ℚ :=
  t.nonEmptyCells.foldl (fun total cell => total + cell.distance) 0

/-- `getMaxDistance`: running maximum over `forEachNonEmpty`, starting at 0. -/
def getMaxDistance (t : ArrayHeatmapTracker) : ℚ :=
  t.nonEmptyCells.foldl (fun mx cell => if cell.distance > mx then cell.distance else mx) 0

/-- `getCellCount`: increments a counter over `forEachNonEmpty`. -/
def getCellCount (t : ArrayHeatmapTracker) : Nat :=
  t.nonEmptyCells.foldl (fun count _ => count + 1) 0

/-- `getAverageDistance`: total over count for nonempty trackers, 0 otherwise. -/
def getAverageDistance (t : ArrayHeatmapTracker) : ℚ :=
  let totalDistance := t.getTotalDistance
  let cellCount := t.getCellCount
  if cellCount > 0 then totalDistance / cellCount else 0

/-- `getAllCells`: every entry of the raw map, without any filtering. -/
def getAllCells (t : ArrayHeatmapTracker) : List HeatmapCell :=
  t.heatmap.map (fun e => ⟨e.1.1, e.1.2, e.2⟩)

/-- `reset`: clears the map. -/
def reset (t : ArrayHeatmapTracker) : ArrayHeatmapTracker :=
  { t with heatmap := [] }

end ArrayHeatmapTracker

/-- `RoutePoint` as consumed by `processRoute` in `src/lib/routeProcessor.ts`:
coordinates plus the optional precomputed per-segment fields. -/
structure RoutePoint where
  lat : ℚ
  lon : ℚ
  distanceFromPrev : Option ℚ := none
  midLat : Option ℚ := none
  midLon : Option ℚ := none
deriving DecidableEq, Repr

/-- A route as consumed by the processor: its ordered point sequence. -/
structure Route where
  points : List RoutePoint
deriving DecidableEq, Repr

/-- The loop body of `processRoute`, walking consecutive point pairs
`(prev, curr)`: segment distance is `curr.distanceFromPrev` when present,
otherwise `calcDist` (modelling `calculateDistance`); the representative
location is the cached midpoint when present, otherwise the arithmetic
midpoint of the endpoints. -/
def processSegments (cosDeg : ℚ → ℚ) (calcDist : ℚ → ℚ → ℚ → ℚ → ℚ) :
    RoutePoint → List RoutePoint → ArrayHeatmapTracker → ArrayHeatmapTracker
  | _, [], t => t
  | prev, curr :: more, t =>
    let distance := curr.distanceFromPrev.getD (calcDist prev.lat prev.lon curr.lat curr.lon)
    let midLat := curr.midLat.getD ((prev.lat + curr.lat) / 2)
    let midLng := curr.midLon.getD ((prev.lon + curr.lon) / 2)
    processSegments cosDeg calcDist curr more (t.addDistance cosDeg midLat midLng distance)

/-- `processRoute` from `src/lib/routeProcessor.ts`: routes with fewer than
two points contribute nothing; otherwise every consecutive pair feeds one
`addDistance` call. -/
def processRoute (cosDeg : ℚ → ℚ) (calcDist : ℚ → ℚ → ℚ → ℚ → ℚ)
    (route : Route) (t : ArrayHeatmapTracker) : ArrayHeatmapTracker :=
  match route.points with
  | [] => t
  | [_] => t
  | p :: q :: rest => processSegments cosDeg calcDist p (q :: rest) t

/-- `processRoutes` from `src/lib/routeProcessor.ts`: reset the tracker,
then process each route in sequence. -/
def processRoutes (cosDeg : ℚ → ℚ) (calcDist : ℚ → ℚ → ℚ → ℚ → ℚ)
    (routes : List Route) (t : ArrayHeatmapTracker) : ArrayHeatmapTracker :=
  routes.foldl (fun tr route => processRoute cosDeg calcDist route tr) t.reset

/-- `calculateActualOverlapScore` from `src/app/api/routes/route.ts`:
the total route distance is accumulated over `forEachNonEmpty`; a zero total
returns the sentinel `1.0`; otherwise each nonempty cell contributes its
share of the route's distance weighted by the aggregate's distance in the
same cell. -/
def calculateActualOverlapScore
    (singleRouteHeatmap allRoutesHeatmap : ArrayHeatmapTracker) : ℚ :=
  let totalRouteDistance :=
    singleRouteHeatmap.nonEmptyCells.foldl (fun total cell => total + cell.distance) 0
  if totalRouteDistance = 0 then 1
  else
    singleRouteHeatmap.nonEmptyCells.foldl
      (fun weightedOverlap cell =>
        weightedOverlap +
          (cell.distance / totalRouteDistance) *
            (allRoutesHeatmap.getDistance cell.cellX cell.cellY))
      0

/-- Modelled from the spec (§4.5 Overlap Scorer), for comparison with the
source's `calculateActualOverlapScore`: the sentinel `1.0` when the sum of
distances over the route's nonempty cells is 0, otherwise the sum over every
nonempty cell `c` of `(c.distance / totalRouteDistance) * aggregateDistance`,
where a cell absent from the aggregate contributes 0. -/
def overlapScoreSpec (routeIndex aggregateIndex : ArrayHeatmapTracker) : ℚ :=
  let totalRouteDistance := (routeIndex.nonEmptyCells.map (fun c => c.distance)).sum
  if totalRouteDistance = 0 then 1
  else
    (routeIndex.nonEmptyCells.map (fun c =>
      (c.distance / totalRouteDistance) *
        (match mapGet aggregateIndex.heatmap (c.cellX, c.cellY) with
         | none => 0
         | some v => v))).sum


/-! ### Generic lemmas about the map model -/

@[simp]
theorem mapKeys_nil : mapKeys [] = [] := rfl

@[simp]
theorem mapKeys_cons (e : Cell × ℚ) (m : HeatmapData) :
    mapKeys (e :: m) = e.1 :: mapKeys m := rfl

@[simp]
theorem mapKeys_append (m₁ m₂ : HeatmapData) :
    mapKeys (m₁ ++ m₂) = mapKeys m₁ ++ mapKeys m₂ :=
  List.map_append _ _ _

@[simp]
theorem mapGet_nil (k : Cell) : mapGet [] k = none := rfl

theorem mapGet_cons (k' : Cell) (v' : ℚ) (m : HeatmapData) (k : Cell) :
    mapGet ((k', v') :: m) k = if k' = k then some v' else mapGet m k := rfl

theorem mapSet_nil (k : Cell) (v : ℚ) : mapSet [] k v = [(k, v)] := rfl

theorem mapSet_cons (k' : Cell) (v' : ℚ) (m : HeatmapData) (k : Cell) (v : ℚ) :
    mapSet ((k', v') :: m) k v =
      if k' = k then (k, v) :: m else (k', v') :: mapSet m k v := rfl

/-- Left folds that add a projection of each element compute the sum of the
projected list (the shape of every `forEachNonEmpty` accumulation loop). -/
theorem foldl_add_eq {α : Type} (f : α → ℚ) :
    ∀ (l : List α) (init : ℚ),
      l.foldl (fun acc c => acc + f c) init = init + (l.map f).sum := by
  intro l
  induction l with
  | nil => intro init; simp
  | cons c l ih =>
    intro init
    simp only [List.foldl_cons, List.map_cons, List.sum_cons, ih (init + f c)]
    ring

/-- The counting fold of `getCellCount` is the length of the visited list. -/
theorem foldl_count_eq {α : Type} :
    ∀ (l : List α) (init : Nat),
      l.foldl (fun count _ => count + 1) init = init + l.length := by
  intro l
  induction l with
  | nil => intro init; simp
  | cons c l ih => intro init; simp [ih]; omega

/-- The keys of the entry list are preserved by `mapSet` on a present key. -/
theorem mapKeys_mapSet_of_mem :
    ∀ (m : HeatmapData) (k : Cell) (v : ℚ), k ∈ mapKeys m →
      mapKeys (mapSet m k v) = mapKeys m := by
  intro m
  induction m with
  | nil => intro k v h; simp at h
  | cons e rest ih =>
    obtain ⟨ek, ev⟩ := e
    intro k v h
    by_cases hk : ek = k
    · simp [mapSet_cons, hk]
    · have hmem : k ∈ mapKeys rest := by
        rcases List.mem_cons.mp (by simpa using h) with h' | h'
        · exact absurd h'.symm hk
        · exact h'
      simp [mapSet_cons, hk, ih k v hmem]

/-- `mapSet` on an absent key appends the entry at the end, exactly as a JS
`Map` records a fresh key in insertion order. -/
theorem mapSet_of_not_mem :
    ∀ (m : HeatmapData) (k : Cell) (v : ℚ), k ∉ mapKeys m →
      mapSet m k v = m ++ [(k, v)] := by
  intro m
  induction m with
  | nil => intro k v _; rfl
  | cons e rest ih =>
    obtain ⟨ek, ev⟩ := e
    intro k v h
    have hk : ek ≠ k := by
      intro hek; exact h (by simp [hek])
    have hrest : k ∉ mapKeys rest := by
      intro hmem; exact h (by simp [hmem])
    simp [mapSet_cons, hk, ih k v hrest]

/-- `mapSet` with the value already stored at the key is the identity. -/
theorem mapSet_eq_self :
    ∀ (m : HeatmapData) (k : Cell) (v : ℚ), mapGet m k = some v →
      mapSet m k v = m := by
  intro m
  induction m with
  | nil => intro k v h; simp at h
  | cons e rest ih =>
    obtain ⟨ek, ev⟩ := e
    intro k v h
    by_cases hk : ek = k
    · subst hk
      have hv : ev = v := by simpa [mapGet_cons] using h
      subst hv
      simp [mapSet_cons]
    · have h' : mapGet rest k = some v := by simpa [mapGet_cons, hk] using h
      simp [mapSet_cons, hk, ih k v h']

/-- Reading back the key just written. -/
theorem mapGet_mapSet_self :
    ∀ (m : HeatmapData) (k : Cell) (v : ℚ), mapGet (mapSet m k v) k = some v := by
  intro m
  induction m with
  | nil => intro k v; simp [mapSet_nil, mapGet_cons]
  | cons e rest ih =>
    obtain ⟨ek, ev⟩ := e
    intro k v
    by_cases hk : ek = k
    · simp [mapSet_cons, hk, mapGet_cons]
    · simp [mapSet_cons, hk, mapGet_cons, ih]

/-- Writing one key leaves every other key unchanged. -/
theorem mapGet_mapSet_ne :
    ∀ (m : HeatmapData) (k k' : Cell) (v : ℚ), k' ≠ k →
      mapGet (mapSet m k v) k' = mapGet m k' := by
  intro m
  induction m with
  | nil =>
    intro k k' v h
    have h1 : ¬k = k' := fun hh => h hh.symm
    simp [mapSet_nil, mapGet_cons, h1]
  | cons e rest ih =>
    obtain ⟨ek, ev⟩ := e
    intro k k' v h
    have h1 : ¬k = k' := fun hh => h hh.symm
    by_cases hk : ek = k
    · have h2 : ¬ek = k' := by rw [hk]; exact h1
      simp [mapSet_cons, hk, mapGet_cons, h1, h2]
    · by_cases hk' : ek = k'
      · simp [mapSet_cons, hk, mapGet_cons, hk', h]
      · simp [mapSet_cons, hk, mapGet_cons, hk', ih k k' v h]

/-- A key is absent exactly when `mapGet` returns `none`. -/
theorem mapGet_eq_none_iff :
    ∀ (m : HeatmapData) (k : Cell), mapGet m k = none ↔ k ∉ mapKeys m := by
  intro m
  induction m with
  | nil => intro k; simp
  | cons e rest ih =>
    obtain ⟨ek, ev⟩ := e
    intro k
    by_cases hk : ek = k
    · simp [mapGet_cons, hk]
    · simp [mapGet_cons, hk, ih k]
      intro _
      exact fun hh => hk hh.symm

/-- `mapGet` over an append: the left list wins when it holds the key. -/
theorem mapGet_append :
    ∀ (m₁ m₂ : HeatmapData) (k : Cell),
      mapGet (m₁ ++ m₂) k =
        match mapGet m₁ k with
        | some v => some v
        | none => mapGet m₂ k := by
  intro m₁
  induction m₁ with
  | nil => intro m₂ k; simp
  | cons e rest ih =>
    obtain ⟨ek, ev⟩ := e
    intro m₂ k
    by_cases hk : ek = k
    · simp [mapGet_cons, hk]
    · simp [mapGet_cons, hk, ih m₂ k]

/-- With nodup keys, list membership of an entry determines `mapGet`. -/
theorem mapGet_eq_some_of_mem :
    ∀ (m : HeatmapData) (k : Cell) (v : ℚ), (mapKeys m).Nodup → (k, v) ∈ m →
      mapGet m k = some v := by
  intro m
  induction m with
  | nil => intro k v _ h; simp at h
  | cons e rest ih =>
    obtain ⟨ek, ev⟩ := e
    intro k v hnd hmem
    have hnd' := List.nodup_cons.mp (by simpa using hnd)
    rcases List.mem_cons.mp hmem with he | he
    · have h1 : ek = k := congrArg Prod.fst he.symm
      have h2 : ev = v := congrArg Prod.snd he.symm
      simp [mapGet_cons, h1, h2]
    · have hkmem : k ∈ mapKeys rest := List.mem_map.mpr ⟨(k, v), he, rfl⟩
      have hk : ek ≠ k := fun hek => hnd'.1 (hek ▸ hkmem)
      simpa [mapGet_cons, hk] using ih k v hnd'.2 he

/-- A present key splits the list around its unique first entry. -/
theorem mapGet_some_split :
    ∀ (m : HeatmapData) (k : Cell) (v : ℚ), mapGet m k = some v →
      ∃ pre post, m = pre ++ (k, v) :: post ∧ k ∉ mapKeys pre := by
  intro m
  induction m with
  | nil => intro k v h; simp at h
  | cons e rest ih =>
    obtain ⟨ek, ev⟩ := e
    intro k v h
    by_cases hk : ek = k
    · have hv : ev = v := by simpa [mapGet_cons, hk] using h
      refine ⟨[], rest, ?_, by simp⟩
      simp [← hk, hv]
    · obtain ⟨pre, post, heq, hpre⟩ := ih k v (by simpa [mapGet_cons, hk] using h)
      refine ⟨(ek, ev) :: pre, post, by simp [heq], ?_⟩
      simp [hpre]
      exact fun hh => hk hh.symm

/-- Association lists with nodup keys and identical lookups are permutations
of one another. -/
theorem perm_of_mapGet_eq :
    ∀ (m₁ m₂ : HeatmapData), (mapKeys m₁).Nodup → (mapKeys m₂).Nodup →
      (∀ k, mapGet m₁ k = mapGet m₂ k) → m₁.Perm m₂ := by
  intro m₁
  induction m₁ with
  | nil =>
    intro m₂ _ _ hget
    cases m₂ with
    | nil => exact List.Perm.refl _
    | cons e rest =>
      exfalso
      obtain ⟨ek, ev⟩ := e
      have := (hget ek).symm
      simp [mapGet_cons] at this
  | cons e r₁ ih =>
    intro m₂ hnd₁ hnd₂ hget
    obtain ⟨k, v⟩ := e
    have hsome : mapGet m₂ k = some v := by
      have h0 := hget k
      simpa [mapGet_cons] using h0.symm
    obtain ⟨pre, post, heq, hpre⟩ := mapGet_some_split m₂ k v hsome
    have hnd₁' := List.nodup_cons.mp (by simpa using hnd₁)
    have hkeys₂ : mapKeys m₂ = mapKeys pre ++ k :: mapKeys post := by
      simp [heq]
    have hsplit : (mapKeys pre).Nodup ∧ (k :: mapKeys post).Nodup ∧
        (mapKeys pre).Disjoint (k :: mapKeys post) := by
      rw [hkeys₂] at hnd₂
      exact List.nodup_append.mp hnd₂
    have hknotpost : k ∉ mapKeys post := (List.nodup_cons.mp hsplit.2.1).1
    have hnd₂' : (mapKeys (pre ++ post)).Nodup := by
      rw [mapKeys_append, List.nodup_append]
      refine ⟨hsplit.1, (List.nodup_cons.mp hsplit.2.1).2, ?_⟩
      intro a ha hb
      exact hsplit.2.2 ha (List.mem_cons_of_mem _ hb)
    have hget' : ∀ k', mapGet r₁ k' = mapGet (pre ++ post) k' := by
      intro k'
      by_cases hk' : k' = k
      · subst hk'
        rw [(mapGet_eq_none_iff r₁ k').mpr hnd₁'.1, mapGet_append,
          (mapGet_eq_none_iff pre k').mpr hpre,
          (mapGet_eq_none_iff post k').mpr hknotpost]
      · have hl : mapGet r₁ k' = mapGet m₂ k' := by
          have h0 := hget k'
          have hne : ¬k = k' := fun hh => hk' hh.symm
          simpa [mapGet_cons, hne] using h0
        rw [hl, heq, mapGet_append, mapGet_append]
        cases hc : mapGet pre k' with
        | some w => rfl
        | none =>
          simp [hc, mapGet_cons]
          intro hh
          exact absurd hh.symm hk'
    have hperm' : r₁.Perm (pre ++ post) := ih (pre ++ post) hnd₁'.2 hnd₂' hget'
    exact (hperm'.cons (k, v)).trans (heq ▸ List.perm_middle.symm)

/-! ### Tracker-level lemmas -/

namespace ArrayHeatmapTracker

theorem heatmapConfig_addDistance (cosDeg : ℚ → ℚ) (t : ArrayHeatmapTracker)
    (lat lng d : ℚ) :
    (t.addDistance cosDeg lat lng d).heatmapConfig = t.heatmapConfig := rfl

/-- `addDistance` adds `d` at the resolved cell and leaves all other cells
untouched. -/
theorem getDistance_addDistance (cosDeg : ℚ → ℚ) (t : ArrayHeatmapTracker)
    (lat lng d : ℚ) (x y : ℤ) :
    (t.addDistance cosDeg lat lng d).getDistance x y =
      if latLngToHeatmap cosDeg lat lng t.heatmapConfig = (x, y)
      then t.getDistance x y + d
      else t.getDistance x y := by
  unfold addDistance getDistance
  by_cases h : latLngToHeatmap cosDeg lat lng t.heatmapConfig = (x, y)
  · simp only [h, if_pos rfl, mapGet_mapSet_self, Option.getD_some, if_pos]
  · have hne : ((x, y) : Cell) ≠ latLngToHeatmap cosDeg lat lng t.heatmapConfig :=
      fun hh => h hh.symm
    simp [h, mapGet_mapSet_ne _ _ _ _ hne]

/-- The lookup level version of `getDistance_addDistance`. -/
theorem mapGet_addDistance (cosDeg : ℚ → ℚ) (t : ArrayHeatmapTracker)
    (lat lng d : ℚ) (k : Cell) :
    mapGet (t.addDistance cosDeg lat lng d).heatmap k =
      if latLngToHeatmap cosDeg lat lng t.heatmapConfig = k
      then some ((mapGet t.heatmap k).getD 0 + d)
      else mapGet t.heatmap k := by
  unfold addDistance
  by_cases h : latLngToHeatmap cosDeg lat lng t.heatmapConfig = k
  · simp [h, mapGet_mapSet_self]
  · have hne : k ≠ latLngToHeatmap cosDeg lat lng t.heatmapConfig :=
      fun hh => h hh.symm
    simp [h, mapGet_mapSet_ne _ _ _ _ hne]

/-- The accumulation loop of `getTotalDistance` computes a list sum. -/
theorem getTotalDistance_eq_sum (t : ArrayHeatmapTracker) :
    t.getTotalDistance = (t.nonEmptyCells.map (fun c => c.distance)).sum := by
  unfold getTotalDistance
  rw [foldl_add_eq, zero_add]

/-- The counting loop of `getCellCount` computes the list length. -/
theorem getCellCount_eq_length (t : ArrayHeatmapTracker) :
    t.getCellCount = t.nonEmptyCells.length := by
  unfold getCellCount
  rw [foldl_count_eq, Nat.zero_add]

end ArrayHeatmapTracker

/-- An `Option` match with a zero default is `Option.getD`. -/
theorem match_eq_getD (o : Option ℚ) :
    (match o with | none => (0 : ℚ) | some v => v) = o.getD 0 := by
  cases o <;> rfl

/-! ### Claim C1 -/

/-- C1: for every route grid index and aggregate grid index,
`calculateActualOverlapScore` returns the sentinel `1.0` when the sum of
distances over the route's nonempty cells is 0, and otherwise returns the
sum, over every nonempty cell `c` of the route index, of
`(c.distance / totalRouteDistance) * aggregate.getDistance(c.cellX, c.cellY)`,
where a cell absent from the aggregate contributes 0 — i.e. the source
scorer coincides with the spec's formula `overlapScoreSpec`. -/
theorem claim_C1_overlap_score_formula
    (routeIndex aggregateIndex : ArrayHeatmapTracker) :
    calculateActualOverlapScore routeIndex aggregateIndex =
      overlapScoreSpec routeIndex aggregateIndex := by
  simp only [calculateActualOverlapScore, overlapScoreSpec]
  rw [foldl_add_eq, zero_add]
  by_cases h : (routeIndex.nonEmptyCells.map (fun c => c.distance)).sum = 0
  · simp [h]
  · rw [if_neg h, if_neg h, foldl_add_eq, zero_add]
    congr 1
    apply List.map_congr_left
    intro c _
    rw [match_eq_getD]
    rfl

/-! ### Claim C10 -/

/-- C10: for every tracker state and integer cell coordinates `(x, y)`,
`findCell` returns `{cellX := x, cellY := y, distance := getDistance x y}`
exactly when `getDistance x y > 0`, and `undefined` (`none`) otherwise. -/
theorem claim_C10_findCell_characterization
    (t : ArrayHeatmapTracker) (x y : ℤ) :
    t.findCell x y =
      (if 0 < t.getDistance x y
       then some ⟨x, y, t.getDistance x y⟩
       else none) ∧
    (t.findCell x y = none ↔ t.getDistance x y ≤ 0) := by
  constructor
  · rfl
  · unfold ArrayHeatmapTracker.findCell
    by_cases h : t.getDistance x y > 0
    · simp [h]
    · simp [h]
      exact le_of_not_lt h

/-! ### Claim C4 -/

/-- C4 counterexample: on a fresh tracker under the default configuration,
`addDistance` with `meters = 0` at the reference point materializes the
zero-distance cell `(0, 0)` inside the map, and `getAllCells` (which iterates
the raw map without filtering) reports it: the observable state changes, so
the call is not a no-op and a cell without positive accumulated distance is
materialized. -/
theorem claim_C4_counterexample :
    (ArrayHeatmapTracker.addDistance (fun _ => 61/100)
        ⟨[], createHeatmapConfig 5 (52.3676, 4.9041)⟩ 52.3676 4.9041 0).getAllCells
      = [⟨0, 0, 0⟩] ∧
    (⟨[], createHeatmapConfig 5 (52.3676, 4.9041)⟩ : ArrayHeatmapTracker).getAllCells
      = ([] : List HeatmapCell) ∧
    ([⟨0, 0, 0⟩] : List HeatmapCell) ≠ ([] : List HeatmapCell) := by
  refine ⟨?_, rfl, by simp⟩
  simp [ArrayHeatmapTracker.addDistance, ArrayHeatmapTracker.getAllCells,
    latLngToHeatmap, createHeatmapConfig, mapSet, mapGet, Rat.floor_def]

/-- C4 (amended): a call of `addDistance` with `meters = 0` may materialize a
zero-distance entry in the internal map (observable through `getAllCells`,
see the counterexample), but it leaves the nonempty-cell iteration and hence
`getDistance` for every cell, `getCellCount` and `getTotalDistance`
unchanged; cells reported by the nonempty iteration always carry positive
accumulated distance. -/
theorem claim_C4_add_zero_preserves_nonempty_queries
    (cosDeg : ℚ → ℚ) (t : ArrayHeatmapTracker) (lat lng : ℚ) :
    (t.addDistance cosDeg lat lng 0).nonEmptyCells = t.nonEmptyCells ∧
    (∀ x y : ℤ, (t.addDistance cosDeg lat lng 0).getDistance x y = t.getDistance x y) ∧
    (t.addDistance cosDeg lat lng 0).getCellCount = t.getCellCount ∧
    (t.addDistance cosDeg lat lng 0).getTotalDistance = t.getTotalDistance := by
  have hne : (t.addDistance cosDeg lat lng 0).nonEmptyCells = t.nonEmptyCells := by
    cases hg : mapGet t.heatmap (latLngToHeatmap cosDeg lat lng t.heatmapConfig) with
    | some v =>
      have hh : (t.addDistance cosDeg lat lng 0).heatmap = t.heatmap := by
        show mapSet t.heatmap _ ((mapGet t.heatmap _).getD 0 + 0) = t.heatmap
        rw [hg]
        simpa using mapSet_eq_self t.heatmap _ v hg
      unfold ArrayHeatmapTracker.nonEmptyCells
      rw [hh]
    | none =>
      have hmem := (mapGet_eq_none_iff t.heatmap _).mp hg
      have hh : (t.addDistance cosDeg lat lng 0).heatmap =
          t.heatmap ++ [(latLngToHeatmap cosDeg lat lng t.heatmapConfig, 0)] := by
        show mapSet t.heatmap _ ((mapGet t.heatmap _).getD 0 + 0) = _
        rw [hg]
        simpa using mapSet_of_not_mem t.heatmap _ 0 hmem
      unfold ArrayHeatmapTracker.nonEmptyCells
      rw [hh, List.filter_append]
      simp
  refine ⟨hne, ?_, ?_, ?_⟩
  · intro x y
    rw [ArrayHeatmapTracker.getDistance_addDistance]
    split_ifs with h
    · exact add_zero _
    · rfl
  · unfold ArrayHeatmapTracker.getCellCount
    rw [hne]
  · unfold ArrayHeatmapTracker.getTotalDistance
    rw [hne]

/-! ### Claim C3 -/

/-- C3 counterexample: constructing the configuration and the tracker with
the non-positive cell size `-1` does not fail: the value is stored unchanged
(never coerced), a tracker is produced, and that tracker is fully usable —
it answers queries and even accumulates distance through `addDistance`.
Nothing rejects the value at construction time. -/
theorem claim_C3_counterexample :
    createHeatmapConfig (-1) (52.3676, 4.9041) =
      { heatmapSizeKm := -1, referencePoint := (52.3676, 4.9041) } ∧
    (⟨[], createHeatmapConfig (-1) (52.3676, 4.9041)⟩ : ArrayHeatmapTracker).getCellCount
      = 0 ∧
    ((⟨[], createHeatmapConfig (-1) (52.3676, 4.9041)⟩ : ArrayHeatmapTracker).addDistance
        (fun _ => 61/100) 52.3676 4.9041 1000).getTotalDistance = 1000 := by
  refine ⟨rfl, rfl, ?_⟩
  simp [ArrayHeatmapTracker.addDistance, ArrayHeatmapTracker.getTotalDistance,
    ArrayHeatmapTracker.nonEmptyCells, latLngToHeatmap, createHeatmapConfig,
    mapSet, mapGet, Rat.floor_def]

/-- C3 (amended): for every non-positive `cellSizeKm`, construction does NOT
fail: `createHeatmapConfig` stores the value unchanged (no validation, no
silent coercion) and the tracker built from the resulting configuration is a
usable index. Rejecting a non-positive cell size is left entirely to the
caller. -/
theorem claim_C3_no_construction_validation
    (s : ℚ) (rp : ℚ × ℚ) (_hs : s ≤ 0) :
    (createHeatmapConfig s rp).heatmapSizeKm = s ∧
    (createHeatmapConfig s rp).referencePoint = rp ∧
    (⟨[], createHeatmapConfig s rp⟩ : ArrayHeatmapTracker).getCellCount = 0 ∧
    (⟨[], createHeatmapConfig s rp⟩ : ArrayHeatmapTracker).getTotalDistance = 0 :=
  ⟨rfl, rfl, rfl, rfl⟩

/-- Witness for C3 (amended) at the concrete non-positive cell size `-1`. -/
theorem claim_C3_no_construction_validation_witness :
    (createHeatmapConfig (-1) (52.3676, 4.9041)).heatmapSizeKm = -1 ∧
    (createHeatmapConfig (-1) (52.3676, 4.9041)).referencePoint = (52.3676, 4.9041) ∧
    (⟨[], createHeatmapConfig (-1) (52.3676, 4.9041)⟩ : ArrayHeatmapTracker).getCellCount = 0 ∧
    (⟨[], createHeatmapConfig (-1) (52.3676, 4.9041)⟩ : ArrayHeatmapTracker).getTotalDistance = 0 :=
  claim_C3_no_construction_validation (-1) (52.3676, 4.9041) (by norm_num)

/-! ### Claims C2 and C7 -/

/-- Scoring any route index with nonzero total distance against a tracker
with an empty map yields 0: every weighted term reads distance 0 from the
empty aggregate. -/
theorem score_against_empty (r : ArrayHeatmapTracker) (cfgA : HeatmapConfig)
    (h : r.getTotalDistance ≠ 0) :
    calculateActualOverlapScore r ⟨[], cfgA⟩ = 0 := by
  simp only [calculateActualOverlapScore]
  rw [if_neg (by simpa [ArrayHeatmapTracker.getTotalDistance] using h)]
  rw [foldl_add_eq, zero_add]
  apply List.sum_eq_zero
  intro x hx
  obtain ⟨c, hc, rfl⟩ := List.mem_map.mp hx
  simp [ArrayHeatmapTracker.getDistance]

/-- C2 counterexample: the route index built from a zero-point route, scored
against the aggregate built from zero routes, yields the sentinel `1.0`,
not `0`: the claim's universal quantification over route indexes fails on
routes with no coverage. -/
theorem claim_C2_counterexample :
    calculateActualOverlapScore
        (processRoute (fun _ => 61/100) (fun _ _ _ _ => 0) ⟨[]⟩
          ⟨[], createHeatmapConfig 5 (52.3676, 4.9041)⟩)
        (processRoutes (fun _ => 61/100) (fun _ _ _ _ => 0) []
          ⟨[], createHeatmapConfig 5 (52.3676, 4.9041)⟩)
      = 1 ∧ (1 : ℚ) ≠ 0 :=
  ⟨rfl, by norm_num⟩

/-- C2 (amended): for every route index whose own total distance is nonzero,
scoring it against the aggregate built from zero routes yields an overlap
score equal to 0; a route index with zero total distance instead hits the
`1.0` sentinel (see the counterexample). -/
theorem claim_C2_zero_route_aggregate_scores_zero
    (cosDeg : ℚ → ℚ) (calcDist : ℚ → ℚ → ℚ → ℚ → ℚ)
    (r t : ArrayHeatmapTracker)
    (h : r.getTotalDistance ≠ 0) :
    calculateActualOverlapScore r (processRoutes cosDeg calcDist [] t) = 0 := by
  have hagg : processRoutes cosDeg calcDist [] t = ⟨[], t.heatmapConfig⟩ := rfl
  rw [hagg]
  exact score_against_empty r t.heatmapConfig h

/-- Witness for C2 (amended): a route index holding 5 meters in cell (0,0)
scores 0 against the aggregate built from zero routes. -/
theorem claim_C2_zero_route_aggregate_scores_zero_witness :
    (⟨[((0, 0), 5)], createHeatmapConfig 5 (52.3676, 4.9041)⟩ :
        ArrayHeatmapTracker).getTotalDistance ≠ 0 ∧
    calculateActualOverlapScore
        ⟨[((0, 0), 5)], createHeatmapConfig 5 (52.3676, 4.9041)⟩
        (processRoutes (fun _ => 61/100) (fun _ _ _ _ => 0) []
          ⟨[], createHeatmapConfig 5 (52.3676, 4.9041)⟩) = 0 :=
  ⟨by norm_num [ArrayHeatmapTracker.getTotalDistance,
      ArrayHeatmapTracker.nonEmptyCells, List.filter],
   claim_C2_zero_route_aggregate_scores_zero _ _ _ _
     (by norm_num [ArrayHeatmapTracker.getTotalDistance,
        ArrayHeatmapTracker.nonEmptyCells, List.filter])⟩

/-- C7: for every route grid state with nodup keys and positive total
coverage, the score against an empty aggregate is 0, the score against an
aggregate holding the route's own contributions is strictly positive, and
therefore the self-score is at least the empty-aggregate score. -/
theorem claim_C7_self_overlap_beats_empty
    (h : HeatmapData) (cfgR cfgA : HeatmapConfig)
    (hnd : (mapKeys h).Nodup)
    (hpos : 0 < (⟨h, cfgR⟩ : ArrayHeatmapTracker).getTotalDistance) :
    calculateActualOverlapScore ⟨h, cfgR⟩ ⟨[], cfgA⟩ = 0 ∧
    0 < calculateActualOverlapScore ⟨h, cfgR⟩ ⟨h, cfgA⟩ ∧
    calculateActualOverlapScore ⟨h, cfgR⟩ ⟨[], cfgA⟩ ≤
      calculateActualOverlapScore ⟨h, cfgR⟩ ⟨h, cfgA⟩ := by
  have hT : (⟨h, cfgR⟩ : ArrayHeatmapTracker).getTotalDistance ≠ 0 := ne_of_gt hpos
  have h0 : calculateActualOverlapScore ⟨h, cfgR⟩ ⟨[], cfgA⟩ = 0 :=
    score_against_empty _ cfgA hT
  have hTsum : 0 <
      (⟨h, cfgR⟩ : ArrayHeatmapTracker).nonEmptyCells.foldl
        (fun total cell => total + cell.distance) 0 := hpos
  have hself : 0 < calculateActualOverlapScore ⟨h, cfgR⟩ ⟨h, cfgA⟩ := by
    simp only [calculateActualOverlapScore]
    rw [if_neg (by simpa [ArrayHeatmapTracker.getTotalDistance] using hT)]
    rw [foldl_add_eq, zero_add]
    apply List.sum_pos
    · intro x hx
      obtain ⟨c, hcl, rfl⟩ := List.mem_map.mp hx
      obtain ⟨e, hef, rfl⟩ := List.mem_map.mp hcl
      have hmem := List.mem_filter.mp hef
      have he2 : 0 < e.2 := by simpa using hmem.2
      have hget : mapGet h e.1 = some e.2 :=
        mapGet_eq_some_of_mem h e.1 e.2 hnd hmem.1
      have hgd : (⟨h, cfgA⟩ : ArrayHeatmapTracker).getDistance e.1.1 e.1.2 = e.2 := by
        simp [ArrayHeatmapTracker.getDistance, hget]
      simp only [hgd]
      exact mul_pos (div_pos he2 hTsum) he2
    · intro hnil
      rw [List.map_eq_nil_iff] at hnil
      rw [hnil] at hTsum
      simp at hTsum
  exact ⟨h0, hself, h0 ▸ le_of_lt hself⟩

/-- Witness for C7 at a one-cell route state holding 100 meters. -/
theorem claim_C7_self_overlap_beats_empty_witness :
    (mapKeys [((0, 0), (100 : ℚ))]).Nodup ∧
    0 < (⟨[((0, 0), 100)], createHeatmapConfig 5 (52.3676, 4.9041)⟩ :
        ArrayHeatmapTracker).getTotalDistance ∧
    calculateActualOverlapScore
        ⟨[((0, 0), 100)], createHeatmapConfig 5 (52.3676, 4.9041)⟩
        ⟨[], createHeatmapConfig 5 (52.3676, 4.9041)⟩ = 0 ∧
    0 < calculateActualOverlapScore
        ⟨[((0, 0), 100)], createHeatmapConfig 5 (52.3676, 4.9041)⟩
        ⟨[((0, 0), 100)], createHeatmapConfig 5 (52.3676, 4.9041)⟩ ∧
    calculateActualOverlapScore
        ⟨[((0, 0), 100)], createHeatmapConfig 5 (52.3676, 4.9041)⟩
        ⟨[], createHeatmapConfig 5 (52.3676, 4.9041)⟩ ≤
      calculateActualOverlapScore
        ⟨[((0, 0), 100)], createHeatmapConfig 5 (52.3676, 4.9041)⟩
        ⟨[((0, 0), 100)], createHeatmapConfig 5 (52.3676, 4.9041)⟩ :=
  ⟨by decide,
   by norm_num [ArrayHeatmapTracker.getTotalDistance,
     ArrayHeatmapTracker.nonEmptyCells, List.filter],
   claim_C7_self_overlap_beats_empty _ _ _ (by decide)
     (by norm_num [ArrayHeatmapTracker.getTotalDistance,
       ArrayHeatmapTracker.nonEmptyCells, List.filter])⟩

/-! ### Claim C6 -/

/-- C6: for every finite `(lat, lng)` pair and configuration, the mapping
returns `cellY = ⌊(lat - refLat) / (cellSizeKm / 111)⌋ = ⌊(lat - refLat) * 111 / cellSizeKm⌋`
and `cellX = ⌊(lng - refLng) * (111 * cos refLat) / cellSizeKm⌋`, the
longitude compression using the reference point's latitude (the only
latitude `cosDeg` is ever applied to); and, for positive cell size and
positive reference-latitude cosine, the resulting integers are unbounded:
every integer pair `z` is attained by some input point. -/
theorem claim_C6_cell_mapping_formula
    (cosDeg : ℚ → ℚ) (cfg : HeatmapConfig) (lat lng : ℚ) (z : ℤ × ℤ)
    (hs : 0 < cfg.heatmapSizeKm) (hc : 0 < cosDeg cfg.referencePoint.1) :
    latLngToHeatmap cosDeg lat lng cfg =
      (⌊(lng - cfg.referencePoint.2) * (111 * cosDeg cfg.referencePoint.1) /
          cfg.heatmapSizeKm⌋,
       ⌊(lat - cfg.referencePoint.1) * 111 / cfg.heatmapSizeKm⌋) ∧
    ∃ lat' lng', latLngToHeatmap cosDeg lat' lng' cfg = z := by
  have hcx : cfg.heatmapSizeKm / (111 * cosDeg cfg.referencePoint.1) ≠ 0 := by positivity
  have hcy : cfg.heatmapSizeKm / 111 ≠ 0 := by positivity
  constructor
  · simp only [latLngToHeatmap, div_div_eq_mul_div]
  · obtain ⟨z1, z2⟩ := z
    refine ⟨cfg.referencePoint.1 +
        (z2 : ℚ) * (cfg.heatmapSizeKm / 111),
      cfg.referencePoint.2 +
        (z1 : ℚ) * (cfg.heatmapSizeKm / (111 * cosDeg cfg.referencePoint.1)), ?_⟩
    simp only [latLngToHeatmap, Prod.mk.injEq]
    constructor
    · have e1 : cfg.referencePoint.2 +
          (z1 : ℚ) * (cfg.heatmapSizeKm / (111 * cosDeg cfg.referencePoint.1)) -
          cfg.referencePoint.2 =
          (z1 : ℚ) * (cfg.heatmapSizeKm / (111 * cosDeg cfg.referencePoint.1)) := by
        ring
      rw [e1, mul_div_assoc, div_self hcx, mul_one]
      exact Int.floor_intCast z1
    · have e2 : cfg.referencePoint.1 + (z2 : ℚ) * (cfg.heatmapSizeKm / 111) -
          cfg.referencePoint.1 = (z2 : ℚ) * (cfg.heatmapSizeKm / 111) := by
        ring
      rw [e2, mul_div_assoc, div_self hcy, mul_one]
      exact Int.floor_intCast z2

/-- Witness for C6 at the default configuration, a cosine value of 61/100,
the query point (52.4, 4.95) and the target cell (-7, 3). -/
theorem claim_C6_cell_mapping_formula_witness :
    0 < (createHeatmapConfig 5 (52.3676, 4.9041)).heatmapSizeKm ∧
    0 < (fun _ : ℚ => (61/100 : ℚ))
        (createHeatmapConfig 5 (52.3676, 4.9041)).referencePoint.1 ∧
    (latLngToHeatmap (fun _ => 61/100) 52.4 4.95
        (createHeatmapConfig 5 (52.3676, 4.9041)) =
      (⌊((4.95 : ℚ) - (createHeatmapConfig 5 (52.3676, 4.9041)).referencePoint.2) *
          (111 * (61/100)) / (createHeatmapConfig 5 (52.3676, 4.9041)).heatmapSizeKm⌋,
       ⌊((52.4 : ℚ) - (createHeatmapConfig 5 (52.3676, 4.9041)).referencePoint.1) *
          111 / (createHeatmapConfig 5 (52.3676, 4.9041)).heatmapSizeKm⌋) ∧
     ∃ lat' lng', latLngToHeatmap (fun _ => 61/100) lat' lng'
        (createHeatmapConfig 5 (52.3676, 4.9041)) = ((-7 : ℤ), (3 : ℤ))) :=
  ⟨by norm_num [createHeatmapConfig], by norm_num,
   claim_C6_cell_mapping_formula (fun _ => 61/100)
     (createHeatmapConfig 5 (52.3676, 4.9041)) 52.4 4.95 ((-7 : ℤ), (3 : ℤ))
     (by norm_num [createHeatmapConfig]) (by norm_num)⟩

/-! ### Claim C8 -/

/-- C8 (Scenario A): with `cellSizeKm = 5` and reference point
`(52.3676, 4.9041)`, processing a two-point route from the reference point to
`(52.4, 4.95)` into a fresh tracker lands the single segment's entire
distance in exactly one cell — cell `(0, 0)` — so `getCellCount` is 1.
`cosDeg` and `calcDist` model `Math.cos`-in-degrees and `calculateDistance`;
the hypotheses record that the true cosine of 52.3676° lies in `(0, 1]` and
that the true haversine distance of this ~3.9 km segment is positive. -/
theorem claim_C8_scenario_A_single_cell
    (cosDeg : ℚ → ℚ) (calcDist : ℚ → ℚ → ℚ → ℚ → ℚ)
    (hc0 : 0 < cosDeg 52.3676) (hc1 : cosDeg 52.3676 ≤ 1)
    (hd : 0 < calcDist 52.3676 4.9041 52.4 4.95) :
    (processRoute cosDeg calcDist
        ⟨[{ lat := 52.3676, lon := 4.9041 }, { lat := 52.4, lon := 4.95 }]⟩
        ⟨[], createHeatmapConfig 5 (52.3676, 4.9041)⟩).getCellCount = 1 ∧
    (processRoute cosDeg calcDist
        ⟨[{ lat := 52.3676, lon := 4.9041 }, { lat := 52.4, lon := 4.95 }]⟩
        ⟨[], createHeatmapConfig 5 (52.3676, 4.9041)⟩).getAllCells
      = [⟨0, 0, calcDist 52.3676 4.9041 52.4 4.95⟩] := by
  have hcell : latLngToHeatmap cosDeg ((52.3676 + 52.4) / 2) ((4.9041 + 4.95) / 2)
      (createHeatmapConfig 5 (52.3676, 4.9041)) = (0, 0) := by
    simp only [latLngToHeatmap, createHeatmapConfig, Prod.mk.injEq]
    constructor
    · rw [div_div_eq_mul_div, Int.floor_eq_zero_iff, Set.mem_Ico]
      have hnum : ((4.9041 + 4.95) / 2 - (4.9041 : ℚ)) = 2295/100000 := by norm_num
      rw [hnum]
      constructor
      · positivity
      · nlinarith [hc0, hc1]
    · rw [Int.floor_eq_zero_iff, Set.mem_Ico]
      constructor
      · norm_num
      · norm_num
  have hproc : processRoute cosDeg calcDist
      ⟨[{ lat := 52.3676, lon := 4.9041 }, { lat := 52.4, lon := 4.95 }]⟩
      ⟨[], createHeatmapConfig 5 (52.3676, 4.9041)⟩ =
      ⟨[((0, 0), 0 + calcDist 52.3676 4.9041 52.4 4.95)],
        createHeatmapConfig 5 (52.3676, 4.9041)⟩ := by
    simp only [processRoute, processSegments, ArrayHeatmapTracker.addDistance,
      mapGet_nil, Option.getD_none, mapSet_nil, hcell]
  rw [hproc]
  constructor
  · simp [ArrayHeatmapTracker.getCellCount, ArrayHeatmapTracker.nonEmptyCells,
      List.filter, hd]
  · simp [ArrayHeatmapTracker.getAllCells]

/-- Witness for C8 with the cosine value 61/100 and segment distance 3902. -/
theorem claim_C8_scenario_A_single_cell_witness :
    0 < ((fun _ : ℚ => (61/100 : ℚ)) 52.3676) ∧
    ((fun _ : ℚ => (61/100 : ℚ)) 52.3676) ≤ 1 ∧
    0 < ((fun _ _ _ _ : ℚ => (3902 : ℚ)) 52.3676 4.9041 52.4 4.95) ∧
    (processRoute (fun _ => 61/100) (fun _ _ _ _ => 3902)
        ⟨[{ lat := 52.3676, lon := 4.9041 }, { lat := 52.4, lon := 4.95 }]⟩
        ⟨[], createHeatmapConfig 5 (52.3676, 4.9041)⟩).getCellCount = 1 ∧
    (processRoute (fun _ => 61/100) (fun _ _ _ _ => 3902)
        ⟨[{ lat := 52.3676, lon := 4.9041 }, { lat := 52.4, lon := 4.95 }]⟩
        ⟨[], createHeatmapConfig 5 (52.3676, 4.9041)⟩).getAllCells
      = [⟨0, 0, (fun _ _ _ _ : ℚ => (3902 : ℚ)) 52.3676 4.9041 52.4 4.95⟩] := by
  refine ⟨by norm_num, by norm_num, by norm_num, ?_⟩
  exact claim_C8_scenario_A_single_cell (fun _ => 61/100) (fun _ _ _ _ => 3902)
    (by norm_num) (by norm_num) (by norm_num)

/-! ### Claim C5 -/

/-- One accumulation contribution `(lat, lng, meters)` for `addDistance`. -/
abbrev Contribution := ℚ × ℚ × ℚ

/-- Feeding a list of contributions through `addDistance` into a fresh
tracker (empty map, stored configuration `cfg`), in list order. -/
def feedContributions (cosDeg : ℚ → ℚ) (cfg : HeatmapConfig)
    (l : List Contribution) : ArrayHeatmapTracker :=
  l.foldl (fun tr c => tr.addDistance cosDeg c.1 c.2.1 c.2.2) ⟨[], cfg⟩

/-- `mapSet` keeps keys nodup. -/
theorem keysNodup_mapSet (m : HeatmapData) (k : Cell) (v : ℚ)
    (h : (mapKeys m).Nodup) : (mapKeys (mapSet m k v)).Nodup := by
  by_cases hm : k ∈ mapKeys m
  · rw [mapKeys_mapSet_of_mem m k v hm]
    exact h
  · rw [mapSet_of_not_mem m k v hm, mapKeys_append]
    rw [List.nodup_append]
    refine ⟨h, by simp, ?_⟩
    intro a ha hb
    simp at hb
    subst hb
    exact hm ha

/-- Every tracker reached by folding `addDistance` from a nodup-keys state
keeps nodup keys. -/
theorem keysNodup_foldAdd (cosDeg : ℚ → ℚ) :
    ∀ (l : List Contribution) (t : ArrayHeatmapTracker),
      (mapKeys t.heatmap).Nodup →
      (mapKeys (l.foldl
        (fun tr c => tr.addDistance cosDeg c.1 c.2.1 c.2.2) t).heatmap).Nodup := by
  intro l
  induction l with
  | nil => intro t h; exact h
  | cons c l ih =>
    intro t h
    rw [List.foldl_cons]
    exact ih _ (keysNodup_mapSet _ _ _ h)

/-- Lookup after folding `addDistance`: a cell holds the start value plus the
sum of exactly the contributions that resolve to it; untouched cells keep
their previous entry (possibly absent). -/
theorem mapGet_feedAux (cosDeg : ℚ → ℚ) (cfg : HeatmapConfig) :
    ∀ (l : List Contribution) (t : ArrayHeatmapTracker), t.heatmapConfig = cfg →
      ∀ k : Cell,
        mapGet (l.foldl
            (fun tr c => tr.addDistance cosDeg c.1 c.2.1 c.2.2) t).heatmap k =
          if ∃ c ∈ l, latLngToHeatmap cosDeg c.1 c.2.1 cfg = k
          then some ((mapGet t.heatmap k).getD 0 +
            ((l.filter (fun c => latLngToHeatmap cosDeg c.1 c.2.1 cfg = k)).map
              (fun c => c.2.2)).sum)
          else mapGet t.heatmap k := by
  intro l
  induction l with
  | nil => intro t hcfg k; simp
  | cons c l ih =>
    intro t hcfg k
    rw [List.foldl_cons]
    have hcfg' : (t.addDistance cosDeg c.1 c.2.1 c.2.2).heatmapConfig = cfg := hcfg
    rw [ih _ hcfg' k]
    have hmg := ArrayHeatmapTracker.mapGet_addDistance cosDeg t c.1 c.2.1 c.2.2 k
    rw [hcfg] at hmg
    by_cases hck : latLngToHeatmap cosDeg c.1 c.2.1 cfg = k
    · rw [if_pos hck] at hmg
      have hexc : ∃ c' ∈ c :: l, latLngToHeatmap cosDeg c'.1 c'.2.1 cfg = k :=
        ⟨c, List.mem_cons_self c l, hck⟩
      rw [if_pos hexc]
      have hfil : (c :: l).filter
          (fun c' => latLngToHeatmap cosDeg c'.1 c'.2.1 cfg = k) =
          c :: l.filter (fun c' => latLngToHeatmap cosDeg c'.1 c'.2.1 cfg = k) := by
        simp [List.filter_cons, hck]
      rw [hfil, List.map_cons, List.sum_cons]
      by_cases hex : ∃ c' ∈ l, latLngToHeatmap cosDeg c'.1 c'.2.1 cfg = k
      · rw [if_pos hex, hmg]
        simp only [Option.getD_some, Option.some.injEq]
        ring
      · rw [if_neg hex, hmg]
        have hnil : l.filter
            (fun c' => latLngToHeatmap cosDeg c'.1 c'.2.1 cfg = k) = [] := by
          rw [List.filter_eq_nil_iff]
          intro a ha
          simp only [decide_eq_true_eq]
          exact fun hcc => hex ⟨a, ha, hcc⟩
        rw [hnil]
        simp
    · rw [if_neg hck] at hmg
      have hiff : (∃ c' ∈ c :: l, latLngToHeatmap cosDeg c'.1 c'.2.1 cfg = k) ↔
          (∃ c' ∈ l, latLngToHeatmap cosDeg c'.1 c'.2.1 cfg = k) := by
        constructor
        · rintro ⟨c', hm, hcell⟩
          rcases List.mem_cons.mp hm with h' | h'
          · exact absurd (h' ▸ hcell) hck
          · exact ⟨c', h', hcell⟩
        · rintro ⟨c', hm, hcell⟩
          exact ⟨c', List.mem_cons_of_mem _ hm, hcell⟩
      have hfil : (c :: l).filter
          (fun c' => latLngToHeatmap cosDeg c'.1 c'.2.1 cfg = k) =
          l.filter (fun c' => latLngToHeatmap cosDeg c'.1 c'.2.1 cfg = k) := by
        simp [List.filter_cons, hck]
      by_cases hex : ∃ c' ∈ l, latLngToHeatmap cosDeg c'.1 c'.2.1 cfg = k
      · rw [if_pos hex, if_pos (hiff.mpr hex), hmg, hfil]
      · rw [if_neg hex, if_neg (fun hh => hex (hiff.mp hh)), hmg]

/-- C5: feeding the same multiset of `(lat, lng, meters)` contributions to a
fresh grid index in any two orders yields identical accumulated totals for
every cell and an identical `getTotalDistance()`. -/
theorem claim_C5_accumulation_commutes
    (cosDeg : ℚ → ℚ) (cfg : HeatmapConfig) (l₁ l₂ : List Contribution)
    (hperm : l₁.Perm l₂) :
    (∀ x y : ℤ, (feedContributions cosDeg cfg l₁).getDistance x y =
      (feedContributions cosDeg cfg l₂).getDistance x y) ∧
    (feedContributions cosDeg cfg l₁).getTotalDistance =
      (feedContributions cosDeg cfg l₂).getTotalDistance := by
  have hget : ∀ k : Cell,
      mapGet (feedContributions cosDeg cfg l₁).heatmap k =
      mapGet (feedContributions cosDeg cfg l₂).heatmap k := by
    intro k
    unfold feedContributions
    rw [mapGet_feedAux cosDeg cfg l₁ ⟨[], cfg⟩ rfl k,
      mapGet_feedAux cosDeg cfg l₂ ⟨[], cfg⟩ rfl k]
    have hiff : (∃ c ∈ l₁, latLngToHeatmap cosDeg c.1 c.2.1 cfg = k) ↔
        (∃ c ∈ l₂, latLngToHeatmap cosDeg c.1 c.2.1 cfg = k) := by
      constructor
      · rintro ⟨c, hc, hcell⟩
        exact ⟨c, hperm.mem_iff.mp hc, hcell⟩
      · rintro ⟨c, hc, hcell⟩
        exact ⟨c, hperm.mem_iff.mpr hc, hcell⟩
    have hsum : ((l₁.filter
          (fun c => latLngToHeatmap cosDeg c.1 c.2.1 cfg = k)).map
            (fun c => c.2.2)).sum =
        ((l₂.filter (fun c => latLngToHeatmap cosDeg c.1 c.2.1 cfg = k)).map
            (fun c => c.2.2)).sum :=
      ((hperm.filter _).map _).sum_eq
    by_cases hex : ∃ c ∈ l₁, latLngToHeatmap cosDeg c.1 c.2.1 cfg = k
    · rw [if_pos hex, if_pos (hiff.mp hex), hsum]
    · rw [if_neg hex, if_neg (fun hh => hex (hiff.mpr hh))]
  have hnd₁ : (mapKeys (feedContributions cosDeg cfg l₁).heatmap).Nodup :=
    keysNodup_foldAdd cosDeg l₁ ⟨[], cfg⟩ (by simp)
  have hnd₂ : (mapKeys (feedContributions cosDeg cfg l₂).heatmap).Nodup :=
    keysNodup_foldAdd cosDeg l₂ ⟨[], cfg⟩ (by simp)
  have hperm' : (feedContributions cosDeg cfg l₁).heatmap.Perm
      (feedContributions cosDeg cfg l₂).heatmap :=
    perm_of_mapGet_eq _ _ hnd₁ hnd₂ hget
  constructor
  · intro x y
    unfold ArrayHeatmapTracker.getDistance
    rw [hget (x, y)]
  · rw [ArrayHeatmapTracker.getTotalDistance_eq_sum,
      ArrayHeatmapTracker.getTotalDistance_eq_sum]
    exact (((hperm'.filter _).map _).map _).sum_eq

/-- Witness for C5: the two-contribution list fed in both orders gives the
same distance in cell (0,0) and the same total. -/
theorem claim_C5_accumulation_commutes_witness :
    (feedContributions (fun _ => 61/100) (createHeatmapConfig 5 (52.3676, 4.9041))
        [(52.3676, 4.9041, 100), (52.4, 4.95, 50)]).getDistance 0 0 =
      (feedContributions (fun _ => 61/100) (createHeatmapConfig 5 (52.3676, 4.9041))
        [(52.4, 4.95, 50), (52.3676, 4.9041, 100)]).getDistance 0 0 ∧
    (feedContributions (fun _ => 61/100) (createHeatmapConfig 5 (52.3676, 4.9041))
        [(52.3676, 4.9041, 100), (52.4, 4.95, 50)]).getTotalDistance =
      (feedContributions (fun _ => 61/100) (createHeatmapConfig 5 (52.3676, 4.9041))
        [(52.4, 4.95, 50), (52.3676, 4.9041, 100)]).getTotalDistance :=
  ⟨(claim_C5_accumulation_commutes (fun _ => 61/100)
      (createHeatmapConfig 5 (52.3676, 4.9041))
      [(52.3676, 4.9041, 100), (52.4, 4.95, 50)]
      [(52.4, 4.95, 50), (52.3676, 4.9041, 100)]
      (List.Perm.swap _ _ _)).1 0 0,
   (claim_C5_accumulation_commutes (fun _ => 61/100)
      (createHeatmapConfig 5 (52.3676, 4.9041))
      [(52.3676, 4.9041, 100), (52.4, 4.95, 50)]
      [(52.4, 4.95, 50), (52.3676, 4.9041, 100)]
      (List.Perm.swap _ _ _)).2⟩

/-! ### Claim C9 -/

/-- Modelling the JS heap of `Map` objects, needed to state the aliasing
claim about `getHeatmap`: a store of map contents addressed by allocation
index.  The tracker's private `Map` lives at one address; allocation appends
at the end of the store. -/
abbrev MapStore := List HeatmapData

/-- Dereference an address (absent addresses read as an empty map; the
claims only use in-bounds addresses). -/
def readStore (σ : MapStore) (a : Nat) : HeatmapData := σ.getD a []

/-- Overwrite the map object at an address — an arbitrary caller-side
mutation of that `Map`. -/
def writeStore (σ : MapStore) (a : Nat) (m : HeatmapData) : MapStore := σ.set a m

/-- `getHeatmap` from `src/lib/heatmapTracker.ts`: `return new Map(this.heatmap)`
allocates a fresh `Map` whose contents copy the tracker's private map and
hands the caller the fresh address, never the private one. -/
def getHeatmap (σ : MapStore) (tracker : Nat) : MapStore × Nat :=
  (σ ++ [readStore σ tracker], σ.length)

/-- C9: `getHeatmap` returns a copy: the returned address differs from the
tracker's, it initially holds the same contents, and after ANY mutation of
the returned map the tracker's private map — and with it `getDistance`,
`getTotalDistance`, `getCellCount` and `getAllCells` — is unchanged. -/
theorem claim_C9_getHeatmap_copy_semantics
    (σ : MapStore) (tr : Nat) (cfg : HeatmapConfig) (ht : tr < σ.length) :
    (getHeatmap σ tr).2 ≠ tr ∧
    readStore (getHeatmap σ tr).1 (getHeatmap σ tr).2 = readStore σ tr ∧
    ∀ m' : HeatmapData,
      readStore (writeStore (getHeatmap σ tr).1 (getHeatmap σ tr).2 m') tr =
        readStore σ tr ∧
      (∀ x y : ℤ,
        (⟨readStore (writeStore (getHeatmap σ tr).1 (getHeatmap σ tr).2 m') tr,
            cfg⟩ : ArrayHeatmapTracker).getDistance x y =
        (⟨readStore σ tr, cfg⟩ : ArrayHeatmapTracker).getDistance x y) ∧
      (⟨readStore (writeStore (getHeatmap σ tr).1 (getHeatmap σ tr).2 m') tr,
          cfg⟩ : ArrayHeatmapTracker).getTotalDistance =
        (⟨readStore σ tr, cfg⟩ : ArrayHeatmapTracker).getTotalDistance ∧
      (⟨readStore (writeStore (getHeatmap σ tr).1 (getHeatmap σ tr).2 m') tr,
          cfg⟩ : ArrayHeatmapTracker).getCellCount =
        (⟨readStore σ tr, cfg⟩ : ArrayHeatmapTracker).getCellCount ∧
      (⟨readStore (writeStore (getHeatmap σ tr).1 (getHeatmap σ tr).2 m') tr,
          cfg⟩ : ArrayHeatmapTracker).getAllCells =
        (⟨readStore σ tr, cfg⟩ : ArrayHeatmapTracker).getAllCells := by
  have hfreshne : (getHeatmap σ tr).2 ≠ tr := Nat.ne_of_gt ht
  have hcopy : readStore (getHeatmap σ tr).1 (getHeatmap σ tr).2 = readStore σ tr := by
    unfold getHeatmap readStore
    simp [List.getD_eq_getElem?_getD, List.getElem?_concat_length]
  refine ⟨hfreshne, hcopy, ?_⟩
  intro m'
  have hread : readStore (writeStore (getHeatmap σ tr).1 (getHeatmap σ tr).2 m') tr =
      readStore σ tr := by
    unfold getHeatmap writeStore readStore
    rw [List.getD_eq_getElem?_getD, List.getD_eq_getElem?_getD,
      List.getElem?_set_ne (Nat.ne_of_gt ht), List.getElem?_append]
    rw [if_pos ht]
  refine ⟨hread, ?_, ?_, ?_, ?_⟩
  · intro x y
    unfold ArrayHeatmapTracker.getDistance
    rw [hread]
  · unfold ArrayHeatmapTracker.getTotalDistance ArrayHeatmapTracker.nonEmptyCells
    rw [hread]
  · unfold ArrayHeatmapTracker.getCellCount ArrayHeatmapTracker.nonEmptyCells
    rw [hread]
  · unfold ArrayHeatmapTracker.getAllCells
    rw [hread]

/-- Witness for C9 on a one-object store holding one nonempty map. -/
theorem claim_C9_getHeatmap_copy_semantics_witness :
    0 < ([[((0, 0), (100 : ℚ))]] : MapStore).length ∧
    ((getHeatmap [[((0, 0), (100 : ℚ))]] 0).2 ≠ 0 ∧
     readStore (getHeatmap [[((0, 0), (100 : ℚ))]] 0).1
        (getHeatmap [[((0, 0), (100 : ℚ))]] 0).2 =
       readStore [[((0, 0), (100 : ℚ))]] 0 ∧
     ∀ m' : HeatmapData,
       readStore (writeStore (getHeatmap [[((0, 0), (100 : ℚ))]] 0).1
           (getHeatmap [[((0, 0), (100 : ℚ))]] 0).2 m') 0 =
         readStore [[((0, 0), (100 : ℚ))]] 0 ∧
       (∀ x y : ℤ,
         (⟨readStore (writeStore (getHeatmap [[((0, 0), (100 : ℚ))]] 0).1
             (getHeatmap [[((0, 0), (100 : ℚ))]] 0).2 m') 0,
             createHeatmapConfig 5 (52.3676, 4.9041)⟩ :
               ArrayHeatmapTracker).getDistance x y =
         (⟨readStore [[((0, 0), (100 : ℚ))]] 0,
             createHeatmapConfig 5 (52.3676, 4.9041)⟩ :
               ArrayHeatmapTracker).getDistance x y) ∧
       (⟨readStore (writeStore (getHeatmap [[((0, 0), (100 : ℚ))]] 0).1
           (getHeatmap [[((0, 0), (100 : ℚ))]] 0).2 m') 0,
           createHeatmapConfig 5 (52.3676, 4.9041)⟩ :
             ArrayHeatmapTracker).getTotalDistance =
         (⟨readStore [[((0, 0), (100 : ℚ))]] 0,
             createHeatmapConfig 5 (52.3676, 4.9041)⟩ :
               ArrayHeatmapTracker).getTotalDistance ∧
       (⟨readStore (writeStore (getHeatmap [[((0, 0), (100 : ℚ))]] 0).1
           (getHeatmap [[((0, 0), (100 : ℚ))]] 0).2 m') 0,
           createHeatmapConfig 5 (52.3676, 4.9041)⟩ :
             ArrayHeatmapTracker).getCellCount =
         (⟨readStore [[((0, 0), (100 : ℚ))]] 0,
             createHeatmapConfig 5 (52.3676, 4.9041)⟩ :
               ArrayHeatmapTracker).getCellCount ∧
       (⟨readStore (writeStore (getHeatmap [[((0, 0), (100 : ℚ))]] 0).1
           (getHeatmap [[((0, 0), (100 : ℚ))]] 0).2 m') 0,
           createHeatmapConfig 5 (52.3676, 4.9041)⟩ :
             ArrayHeatmapTracker).getAllCells =
         (⟨readStore [[((0, 0), (100 : ℚ))]] 0,
             createHeatmapConfig 5 (52.3676, 4.9041)⟩ :
               ArrayHeatmapTracker).getAllCells) :=
  ⟨by norm_num,
   claim_C9_getHeatmap_copy_semantics [[((0, 0), (100 : ℚ))]] 0
     (createHeatmapConfig 5 (52.3676, 4.9041)) (by norm_num)⟩
